import Mathlib

/-!
Shallow embedding of `src/libraries/playlist/PlaylistLoader.ts` (class
`PlaylistLoader`).  External collaborators (the blister.js serialization
library, the BeatSaver catalog, the filesystem, the progress sink shape)
appear as explicit parameters (`Env`, `FileSystem`) or as data types; all
branching logic of the class itself is translated line by line.

Conventions of the embedding:
  * a JS value that may be `undefined` is `Option`;
  * `online?: BeatsaverBeatmap | null` becomes `Option (Option BeatsaverBeatmap)`
    (`none` = the field is undefined / never set, `some none` = explicitly `null`,
    `some (some e)` = resolved entry `e`);
  * a `Promise` that may reject is `Except Unit` (or `Except String`);
    `Except.error` marks an exception propagating to the caller,
    a caught exception never leaves the function that catches it;
  * Node `Buffer`s are `List (Fin 256)`;
  * timestamps (`Date`) are `Nat`.
-/

/-- A Node `Buffer`: a finite sequence of bytes. -/
abbrev ByteBuf := List (Fin 256)

/-! ### Hex rendering and parsing

`key.toString(16)` (JS `Number.prototype.toString` with radix 16),
`hash.toString('hex')` and `Buffer.from(s, 'hex')` from the source. -/

/-- The sixteen lowercase hex digit characters used by JS `toString(16)` and
`Buffer.toString('hex')`. -/
def hexDigitChar (n : Nat) : Char :=
  match n with
  | 0 => '0' | 1 => '1' | 2 => '2' | 3 => '3' | 4 => '4'
  | 5 => '5' | 6 => '6' | 7 => '7' | 8 => '8' | 9 => '9'
  | 10 => 'a' | 11 => 'b' | 12 => 'c' | 13 => 'd' | 14 => 'e' | 15 => 'f'
  | _ => '0'

/-- Fueled digit loop for `Number.prototype.toString(16)`; fuel `n + 1`
always suffices since the argument shrinks by a factor of 16 per step. -/
def natToHexCore : Nat → Nat → List Char → List Char
  | 0, _, acc => acc
  | fuel + 1, n, acc =>
    if n < 16 then hexDigitChar n :: acc
    else natToHexCore fuel (n / 16) (hexDigitChar (n % 16) :: acc)

/-- Embedding of JS `Number.prototype.toString(16)` on a non-negative integer:
lowercase hex digits, no padding, `0 ↦ "0"`. -/
def natToHex (n : Nat) : String := String.mk (natToHexCore (n + 1) n [])

/-- One byte as two lowercase hex characters (`Buffer.toString('hex')`, per byte). -/
def byteToHex (b : Fin 256) : List Char := [hexDigitChar (b.val / 16), hexDigitChar (b.val % 16)]

/-- Embedding of Node `Buffer.prototype.toString('hex')`. -/
def bytesToHex (bs : ByteBuf) : String := String.mk ((bs.map byteToHex).flatten)

/-- Hex digit value of a character; Node accepts both cases. -/
def hexDigitVal (c : Char) : Option (Fin 16) :=
  if h : 48 ≤ c.toNat ∧ c.toNat ≤ 57 then some ⟨c.toNat - 48, by omega⟩
  else if h2 : 97 ≤ c.toNat ∧ c.toNat ≤ 102 then some ⟨c.toNat - 87, by omega⟩
  else if h3 : 65 ≤ c.toNat ∧ c.toNat ≤ 70 then some ⟨c.toNat - 55, by omega⟩
  else none

/-- Pair-by-pair hex decoding; decoding stops (truncates) at the first
character pair that is not two hex digits, and a dangling odd character is
dropped — the documented behaviour of Node `Buffer.from(s, 'hex')`. -/
def hexToBytesCore : List Char → ByteBuf
  | c1 :: c2 :: rest =>
    match hexDigitVal c1, hexDigitVal c2 with
    | some h, some l => ⟨16 * h.val + l.val, by omega⟩ :: hexToBytesCore rest
    | _, _ => []
  | _ => []

/-- Embedding of Node `Buffer.from(s, 'hex')`. -/
def hexToBytes (s : String) : ByteBuf := hexToBytesCore s.data

/-- Embedding of JS `String.prototype.toLowerCase` on ASCII strings. -/
def jsToLower (s : String) : String := String.mk (s.data.map Char.toLower)

/-! ### Node `path.parse` / `path.join`

`ConvertPlaylistFile` uses `path.parse(filepath).name`, `path.parse(filepath).dir`
and `path.join`.  The embedding covers `/`-separated paths without trailing
separators and without `.`/`..` segments, which is how the loader is called. -/

/-- The substring after the last `/` (node `path.parse(p).base`). -/
def baseChars : List Char → List Char
  | [] => []
  | c :: cs =>
    if c = '/' then baseChars cs
    else if ('/' : Char) ∈ cs then baseChars cs
    else c :: cs

/-- Everything strictly before the last `/` (empty when there is no `/`). -/
def dirRaw (s : List Char) : List Char := s.take (s.length - (baseChars s).length - 1)

/-- Node `path.parse(p).dir`: the part before the last separator, with the
root `/` kept when the path is root-relative. -/
def parseDir (s : List Char) : List Char :=
  if ('/' : Char) ∈ s then (if dirRaw s = [] then ['/'] else dirRaw s) else []

/-- Drops the last extension: everything from the final `.` (inclusive) is cut. -/
def nameAux : List Char → List Char
  | [] => []
  | c :: cs => if c = '.' ∧ ('.' : Char) ∉ cs then [] else c :: nameAux cs

/-- Node `path.parse(p).name` applied to a basename: the basename without its
extension; a leading dot (hidden file) does not start an extension. -/
def nameChars : List Char → List Char
  | [] => []
  | c :: cs => if ('.' : Char) ∈ cs then c :: nameAux cs else c :: cs

/-- Node `path.join(dir, file)` for the shapes produced by `path.parse`. -/
def joinChars (d f : List Char) : List Char :=
  if d = [] then f
  else if d.getLast? = some '/' then d ++ f
  else d ++ '/' :: f

/-! ### Data model

`IPlaylist` / `IBeatmap` / `BeatmapType` come from `blister.js/esm/spec`;
`PlaylistLocal` / `PlaylistLocalMap` / `PlaylistMapImportError` from
`@/libraries/playlist/PlaylistLocal`; `Progress` / `ProgressStatus` from
`@/libraries/common/Progress`. -/

/-- The canonical map-reference tag.  `blister.js` stores it as a number with
`Key`, `Hash`, `Zip`, `LevelID` the four known values; `other` carries any
unrecognized tag value (the `default` branch of the dispatch switch). -/
inductive BeatmapType where
  | key
  | hash
  | zip
  | levelID
  | other (tag : Nat)
deriving DecidableEq, Repr

/-- A canonical map reference (`IBeatmap` of `blister.js/esm/spec`).  The
payload fields are only read in the branch matching `type`. -/
structure IBeatmap where
  dateAdded : Nat
  type : BeatmapType
  key : Nat := 0
  hash : ByteBuf := []
deriving DecidableEq, Repr

/-- A canonical playlist (`IPlaylist` of `blister.js/esm/spec`). -/
structure IPlaylist where
  title : String
  author : String
  description : String
  cover : ByteBuf
  maps : List IBeatmap
deriving DecidableEq, Repr

/-- A resolved catalog entry (`BeatsaverBeatmap`); the loader only reads its
content-hash field (a hex string). -/
structure BeatsaverBeatmap where
  hash : String
deriving DecidableEq, Repr

/-- The typed per-map import errors of `PlaylistLocal.ts`, as used by the
dispatch switch of `ConvertToPlaylistLocal`. -/
inductive PlaylistMapImportError where
  | beatmapTypeZipNotSupported
  | beatmapTypeLevelIdNotSupported
  | beatmapTypeUnknown
deriving DecidableEq, Repr

/-- A loaded map (`PlaylistLocalMap`): `online` is undefined (`none`), null
(`some none`) or a resolved entry; `error` is undefined or a typed error. -/
structure PlaylistLocalMap where
  dateAdded : Nat
  online : Option (Option BeatsaverBeatmap) := none
  error : Option PlaylistMapImportError := none
deriving DecidableEq, Repr

/-- The loaded playlist (`PlaylistLocal`); `path` stays undefined until `Load`
assigns it. -/
structure PlaylistLocal where
  title : String := ""
  author : String := ""
  description : String := ""
  cover : ByteBuf := []
  maps : List PlaylistLocalMap := []
  path : Option String := none
deriving DecidableEq, Repr

/-- Modelled from the spec: the progress sink status enum
(`@/libraries/common/Progress` is not under `src/`): NotStarted, Running,
Completed. -/
inductive ProgressStatus where
  | notStarted
  | running
  | completed
deriving DecidableEq, Repr

/-- Modelled from the spec: the progress sink collaborator
(`@/libraries/common/Progress` is not under `src/`): a mutable record with
`status`, `total` and a monotonically increasing `done`; a fresh sink starts
NotStarted with both counters zero. -/
structure Progress where
  status : ProgressStatus := .notStarted
  total : Nat := 0
  done : Nat := 0
deriving DecidableEq, Repr

/-- The external collaborators of `PlaylistLoader`:
`validateMagicNumber`, `deserialize`, `serialize` (blister.js),
`JSON.parse` composed with `convertLegacyPlaylist` (`parseLegacy`), and the
two BeatSaver catalog lookups (total per the catalog interface: a transport
failure is already collapsed to an absent result by the collaborator). -/
structure Env where
  validateMagicNumber : ByteBuf → Except String Unit
  parseLegacy : ByteBuf → Except Unit IPlaylist
  deserialize : ByteBuf → Except Unit IPlaylist
  serialize : IPlaylist → Except Unit ByteBuf
  getBeatmapByKey : String → Option BeatsaverBeatmap
  getBeatmapByHash : String → Option BeatsaverBeatmap

/-- The filesystem collaborator: a path-indexed store of whole-file buffers,
plus the set of paths on which a write fails (throws). -/
structure FileSystem where
  files : String → Option ByteBuf
  writeFails : String → Bool

/-- `fs.writeFile`: rejects on a failing path, otherwise replaces the file. -/
def FileSystem.writeFile (fs : FileSystem) (p : String) (b : ByteBuf) : Except Unit FileSystem :=
  if fs.writeFails p then Except.error ()
  else Except.ok { fs with files := fun q => if q = p then some b else fs.files q }

/-- `fs.unlink`: removes the file at `p`. -/
def FileSystem.unlink (fs : FileSystem) (p : String) : FileSystem :=
  { fs with files := fun q => if q = p then none else fs.files q }

/-! ### The `PlaylistLoader` class -/

/-- `PLAYLIST_EXTENSION_NAME = 'blist'` (line 12). -/
def PLAYLIST_EXTENSION_NAME : String := "blist"

/-- `IsOldFormat` (lines 62-69): try `validateMagicNumber(buffer)`, return
`false` on success; the catch-all returns `true`, so a validation failure
never escapes as an error. -/
def IsOldFormat (env : Env) (buffer : ByteBuf) : Bool :=
  match env.validateMagicNumber buffer with
  | Except.ok _ => false
  | Except.error _ => true

/-- The body of the arrow function of `ConvertToPlaylistLocal` (lines 85-114):
build `{ dateAdded }`, then dispatch on the tag.  `|| null` collapses an
absent catalog result into an explicit `null` (`some none`). -/
def convertMapToLocal (env : Env) (mapToConvert : IBeatmap) : PlaylistLocalMap :=
  let map : PlaylistLocalMap := { dateAdded := mapToConvert.dateAdded }
  match mapToConvert.type with
  | BeatmapType.key =>
    { map with online := some (env.getBeatmapByKey (natToHex mapToConvert.key)) }
  | BeatmapType.hash =>
    { map with online := some (env.getBeatmapByHash (bytesToHex mapToConvert.hash)) }
  | BeatmapType.zip =>
    { map with error := some PlaylistMapImportError.beatmapTypeZipNotSupported }
  | BeatmapType.levelID =>
    { map with error := some PlaylistMapImportError.beatmapTypeLevelIdNotSupported }
  | BeatmapType.other _ =>
    { map with error := some PlaylistMapImportError.beatmapTypeUnknown }

/-- `ConvertToPlaylistLocal` (lines 71-119).  The `Promise.all` fan-out joins
on all per-map tasks; its functional result is the per-entry conversion in
input order, and the sink ends with `done` raised once per entry, then
`status = Completed`.  (The interleaving of the `done += 1` updates is modelled
separately by `resolveStep` / `resolveSchedule` below.) -/
def ConvertToPlaylistLocal (env : Env) (playlist : IPlaylist) (progress : Progress) :
    PlaylistLocal × Progress :=
  let progress1 : Progress :=
    { progress with status := ProgressStatus.running, total := playlist.maps.length }
  let maps := playlist.maps.map (convertMapToLocal env)
  let progress2 : Progress := { progress1 with done := progress1.done + playlist.maps.length }
  ({ title := playlist.title, author := playlist.author,
     description := playlist.description, cover := playlist.cover,
     maps := maps, path := none },
   { progress2 with status := ProgressStatus.completed })

/-- The arrow function of `ConvertToPlaylistBlister` (lines 129-139): maps with
undefined `online` become `undefined`; otherwise `map.online?.hash || ''`
evaluates to the entry's hash when `online` is an entry and to `''` when it
is `null` (an empty hash string also yields `''`, which is the same string). -/
def blisterMapOfLocal (map : PlaylistLocalMap) : Option IBeatmap :=
  if map.online = none then none
  else
    let hash : String :=
      match map.online with
      | some (some entry) => entry.hash
      | _ => ""
    some { dateAdded := map.dateAdded, type := BeatmapType.hash, key := 0,
           hash := hexToBytes (jsToLower hash) }

/-- `ConvertToPlaylistBlister` (lines 121-143).  The `.map` to
`IBeatmap | undefined` followed by `.filter(m => m !== undefined)` and the
cast is exactly `List.filterMap`. -/
def ConvertToPlaylistBlister (playlist : PlaylistLocal) : IPlaylist :=
  { title := playlist.title, author := playlist.author,
    description := playlist.description, cover := playlist.cover,
    maps := playlist.maps.filterMap blisterMapOfLocal }

/-- `Save` (lines 50-60): the try/catch turns any failure of the projection,
`serialize` or `fs.writeFile` into `false`; on the failing branches the
filesystem is unchanged. -/
def Save (env : Env) (fs : FileSystem) (filepath : String) (playlist : PlaylistLocal) :
    Bool × FileSystem :=
  match env.serialize (ConvertToPlaylistBlister playlist) with
  | Except.error _ => (false, fs)
  | Except.ok buffer =>
    match fs.writeFile filepath buffer with
    | Except.error _ => (false, fs)
    | Except.ok fs2 => (true, fs2)

/-- The sibling filepath computed by `ConvertPlaylistFile` (lines 146-147):
`path.join(path.parse(filepath).dir, path.parse(filepath).name + '.blist')`. -/
def derivedPath (filepath : String) : String :=
  String.mk (joinChars (parseDir filepath.data)
    (nameChars (baseChars filepath.data) ++ '.' :: PLAYLIST_EXTENSION_NAME.data))

/-- `ConvertPlaylistFile` (lines 145-153): save the binary form at the derived
sibling path; delete the original only when the save reported success. -/
def ConvertPlaylistFile (env : Env) (fs : FileSystem) (filepath : String)
    (playlist : PlaylistLocal) : FileSystem :=
  let r := Save env fs (derivedPath filepath) playlist
  if r.1 then r.2.unlink filepath else r.2

/-- `Load` (lines 15-48).  The try/catch covers only the legacy branch
(`JSON.parse` + `convertLegacyPlaylist`); a failure of `deserialize` in the
binary branch is not caught and propagates (`Except.error`).  The result
bundles the returned playlist (none = `undefined`), the filesystem after the
optional migration, and the progress sink. -/
def Load (env : Env) (fs : FileSystem) (filepath : String) (forceConvertIfNeeded : Bool)
    (progress : Progress) :
    Except Unit (Option PlaylistLocal × FileSystem × Progress) :=
  match fs.files filepath with
  | none => Except.ok (none, fs, progress)
  | some buffer =>
    let oldFormat := IsOldFormat env buffer
    let playlistE : Except Unit (Option IPlaylist) :=
      if oldFormat then
        match env.parseLegacy buffer with
        | Except.error _ => Except.ok none
        | Except.ok p => Except.ok (some p)
      else
        match env.deserialize buffer with
        | Except.error e => Except.error e
        | Except.ok p => Except.ok (some p)
    match playlistE with
    | Except.error e => Except.error e
    | Except.ok none => Except.ok (none, fs, progress)
    | Except.ok (some playlist) =>
      let r := ConvertToPlaylistLocal env playlist progress
      let fs2 :=
        if oldFormat && forceConvertIfNeeded then ConvertPlaylistFile env fs filepath r.1
        else fs
      Except.ok (some { r.1 with path := some filepath }, fs2, r.2)

/-! ### Helper lemmas: lowercase-hex rendering -/

/-- Character-level check for `[0-9a-f]`. -/
def isLowerHexDigit (c : Char) : Bool :=
  (48 ≤ c.toNat && c.toNat ≤ 57) || (97 ≤ c.toNat && c.toNat ≤ 102)

lemma isLowerHexDigit_hexDigitChar (k : Nat) (hk : k < 16) :
    isLowerHexDigit (hexDigitChar k) = true := by
  interval_cases k <;> decide

lemma natToHexCore_lower (fuel : Nat) :
    ∀ (n : Nat) (acc : List Char), (∀ c ∈ acc, isLowerHexDigit c = true) →
      ∀ c ∈ natToHexCore fuel n acc, isLowerHexDigit c = true := by
  induction fuel with
  | zero => intro n acc hacc c hc; exact hacc c hc
  | succ fuel ih =>
    intro n acc hacc c hc
    unfold natToHexCore at hc
    by_cases hn : n < 16
    · simp only [hn, if_pos] at hc
      rcases List.mem_cons.mp hc with h | h
      · subst h; exact isLowerHexDigit_hexDigitChar n hn
      · exact hacc c h
    · simp only [hn, if_neg, if_false] at hc
      refine ih (n / 16) _ ?_ c hc
      intro d hd
      rcases List.mem_cons.mp hd with h | h
      · subst h; exact isLowerHexDigit_hexDigitChar _ (Nat.mod_lt _ (by omega))
      · exact hacc d h

lemma natToHex_lower (n : Nat) : ∀ c ∈ (natToHex n).data, isLowerHexDigit c = true := by
  intro c hc
  exact natToHexCore_lower (n + 1) n [] (by intro d hd; cases hd) c hc

lemma byteToHex_lower (b : Fin 256) : ∀ c ∈ byteToHex b, isLowerHexDigit c = true := by
  intro c hc
  rcases List.mem_cons.mp hc with h | h
  · subst h; exact isLowerHexDigit_hexDigitChar _ (by omega)
  · rcases List.mem_cons.mp h with h2 | h2
    · subst h2; exact isLowerHexDigit_hexDigitChar _ (Nat.mod_lt _ (by omega))
    · cases h2

lemma bytesToHex_lower (bs : ByteBuf) :
    ∀ c ∈ (bytesToHex bs).data, isLowerHexDigit c = true := by
  intro c hc
  simp only [bytesToHex, List.mem_flatten, List.mem_map] at hc
  rcases hc with ⟨l, ⟨b, _, rfl⟩, hcl⟩
  exact byteToHex_lower b c hcl

/-- C1 helper: the test environment used by concrete witnesses. -/
def envD : Env :=
  { validateMagicNumber := fun _ => Except.error "magic"
    parseLegacy := fun _ => Except.error ()
    deserialize := fun _ => Except.error ()
    serialize := fun _ => Except.error ()
    getBeatmapByKey := fun s => if s = "1a" then some { hash := "aa" } else none
    getBeatmapByHash := fun s => if s = "ab" then some { hash := "ab" } else none }

/-- C1: dispatch correctness of the per-map resolver: Zip yields the
zip-unsupported error, LevelID the level-id-unsupported error, an unrecognized
tag the unknown-type error, each with no `online` value; a Key-tagged input
sets `online` to the catalog lookup at the key rendered as lowercase hex, and a
Hash-tagged input sets `online` to the catalog lookup at the hash rendered as
lowercase hex (`none` inside the set `online` being null / not found). -/
theorem map_resolver_dispatch (env : Env) (m : IBeatmap) :
    (m.type = BeatmapType.zip →
      (convertMapToLocal env m).error = some PlaylistMapImportError.beatmapTypeZipNotSupported ∧
      (convertMapToLocal env m).online = none) ∧
    (m.type = BeatmapType.levelID →
      (convertMapToLocal env m).error = some PlaylistMapImportError.beatmapTypeLevelIdNotSupported ∧
      (convertMapToLocal env m).online = none) ∧
    (∀ tag : Nat, m.type = BeatmapType.other tag →
      (convertMapToLocal env m).error = some PlaylistMapImportError.beatmapTypeUnknown ∧
      (convertMapToLocal env m).online = none) ∧
    (m.type = BeatmapType.key →
      (convertMapToLocal env m).online = some (env.getBeatmapByKey (natToHex m.key)) ∧
      (convertMapToLocal env m).error = none ∧
      ∀ c ∈ (natToHex m.key).data, isLowerHexDigit c = true) ∧
    (m.type = BeatmapType.hash →
      (convertMapToLocal env m).online = some (env.getBeatmapByHash (bytesToHex m.hash)) ∧
      (convertMapToLocal env m).error = none ∧
      ∀ c ∈ (bytesToHex m.hash).data, isLowerHexDigit c = true) := by
  obtain ⟨d, t, k, h⟩ := m
  refine ⟨fun ht => ?_, fun ht => ?_, fun tag ht => ?_, fun ht => ?_, fun ht => ?_⟩ <;>
    subst ht
  · exact ⟨rfl, rfl⟩
  · exact ⟨rfl, rfl⟩
  · exact ⟨rfl, rfl⟩
  · exact ⟨rfl, rfl, natToHex_lower k⟩
  · exact ⟨rfl, rfl, bytesToHex_lower h⟩

/-- C1 witness: each dispatch branch evaluated at a concrete map. -/
theorem map_resolver_dispatch_witness :
    (convertMapToLocal envD { dateAdded := 1, type := BeatmapType.zip }).error =
      some PlaylistMapImportError.beatmapTypeZipNotSupported ∧
    (convertMapToLocal envD { dateAdded := 1, type := BeatmapType.zip }).online = none ∧
    (convertMapToLocal envD { dateAdded := 2, type := BeatmapType.levelID }).error =
      some PlaylistMapImportError.beatmapTypeLevelIdNotSupported ∧
    (convertMapToLocal envD { dateAdded := 3, type := BeatmapType.other 9 }).error =
      some PlaylistMapImportError.beatmapTypeUnknown ∧
    (convertMapToLocal envD { dateAdded := 4, type := BeatmapType.key, key := 26 }).online =
      some (envD.getBeatmapByKey (natToHex 26)) ∧
    (convertMapToLocal envD { dateAdded := 5, type := BeatmapType.hash, hash := [171] }).online =
      some (envD.getBeatmapByHash (bytesToHex [171])) :=
  ⟨((map_resolver_dispatch envD _).1 rfl).1,
   ((map_resolver_dispatch envD _).1 rfl).2,
   ((map_resolver_dispatch envD _).2.1 rfl).1,
   ((map_resolver_dispatch envD _).2.2.1 9 rfl).1,
   ((map_resolver_dispatch envD _).2.2.2.1 rfl).1,
   ((map_resolver_dispatch envD _).2.2.2.2 rfl).1⟩

/-! ### C2: resolver completeness -/

/-- Exactly one of `online` (possibly null) and `error` is defined. -/
def hasExactlyOneOutcome (m : PlaylistLocalMap) : Prop :=
  (m.online ≠ none ∧ m.error = none) ∨ (m.online = none ∧ m.error ≠ none)

lemma convertMapToLocal_outcome (env : Env) (m : IBeatmap) :
    (convertMapToLocal env m).dateAdded = m.dateAdded ∧
    hasExactlyOneOutcome (convertMapToLocal env m) := by
  obtain ⟨d, t, k, h⟩ := m
  cases t <;>
    simp [convertMapToLocal, hasExactlyOneOutcome]

/-- C2: after the resolver runs, the output map list corresponds to the input
list pointwise in order (same length, `dateAdded` carried through unchanged,
exactly one of `online`/`error` defined per map), and a fresh progress sink
ends with `done = total = ` the input map count. -/
theorem resolver_complete (env : Env) (pl : IPlaylist) (progress : Progress)
    (h0 : progress.done = 0) :
    List.Forall₂ (fun (src : IBeatmap) (lm : PlaylistLocalMap) =>
        lm.dateAdded = src.dateAdded ∧ hasExactlyOneOutcome lm)
      pl.maps (ConvertToPlaylistLocal env pl progress).1.maps ∧
    (ConvertToPlaylistLocal env pl progress).1.maps.length = pl.maps.length ∧
    (ConvertToPlaylistLocal env pl progress).2.done = pl.maps.length ∧
    (ConvertToPlaylistLocal env pl progress).2.total = pl.maps.length := by
  refine ⟨?_, ?_, ?_, ?_⟩
  · show List.Forall₂ _ pl.maps (pl.maps.map (convertMapToLocal env))
    rw [List.forall₂_map_right_iff]
    rw [List.forall₂_same]
    intro m _
    exact convertMapToLocal_outcome env m
  · simp [ConvertToPlaylistLocal]
  · simp [ConvertToPlaylistLocal, h0]
  · simp [ConvertToPlaylistLocal]

/-- C2 witness: a two-map playlist resolved against the test environment. -/
theorem resolver_complete_witness :
    List.Forall₂ (fun (src : IBeatmap) (lm : PlaylistLocalMap) =>
        lm.dateAdded = src.dateAdded ∧ hasExactlyOneOutcome lm)
      [{ dateAdded := 1, type := BeatmapType.key, key := 26 },
       { dateAdded := 2, type := BeatmapType.zip }]
      (ConvertToPlaylistLocal envD
        { title := "t", author := "a", description := "d", cover := [],
          maps := [{ dateAdded := 1, type := BeatmapType.key, key := 26 },
                   { dateAdded := 2, type := BeatmapType.zip }] } {}).1.maps ∧
    (ConvertToPlaylistLocal envD
        { title := "t", author := "a", description := "d", cover := [],
          maps := [{ dateAdded := 1, type := BeatmapType.key, key := 26 },
                   { dateAdded := 2, type := BeatmapType.zip }] } {}).1.maps.length = 2 ∧
    (ConvertToPlaylistLocal envD
        { title := "t", author := "a", description := "d", cover := [],
          maps := [{ dateAdded := 1, type := BeatmapType.key, key := 26 },
                   { dateAdded := 2, type := BeatmapType.zip }] } {}).2.done = 2 ∧
    (ConvertToPlaylistLocal envD
        { title := "t", author := "a", description := "d", cover := [],
          maps := [{ dateAdded := 1, type := BeatmapType.key, key := 26 },
                   { dateAdded := 2, type := BeatmapType.zip }] } {}).2.total = 2 :=
  resolver_complete envD
    { title := "t", author := "a", description := "d", cover := [],
      maps := [{ dateAdded := 1, type := BeatmapType.key, key := 26 },
               { dateAdded := 2, type := BeatmapType.zip }] } {} rfl

/-! ### C3: save-direction projection -/

/-- Modelled from the spec's wording of the save-direction contract (§4.4):
a map with absent/undefined `online` is dropped; a map with a present `online`
(null or resolved) becomes one Hash-tagged canonical entry whose hash is the
entry's hash lowercased and decoded from hex (the empty string for null) and
whose `dateAdded` is the original one. -/
def specProjectMap (m : PlaylistLocalMap) : Option IBeatmap :=
  m.online.map fun o =>
    { dateAdded := m.dateAdded, type := BeatmapType.hash, key := 0,
      hash := hexToBytes (jsToLower (match o with | some e => e.hash | none => "")) }

lemma blisterMapOfLocal_eq_spec : blisterMapOfLocal = specProjectMap := by
  funext m
  rcases h : m.online with _ | (_ | e) <;>
    simp [blisterMapOfLocal, specProjectMap, h]

lemma length_filterMap_eq_length_filter {α β : Type} (f : α → Option β) (l : List α) :
    (l.filterMap f).length = (l.filter fun a => (f a).isSome).length := by
  induction l with
  | nil => rfl
  | cons a l ih =>
    cases h : f a <;>
      simp [List.filterMap_cons, List.filter_cons, h, ih]

/-- C3: the save-direction projection copies the metadata verbatim, and its map
list is exactly the in-order spec projection: maps with undefined `online` are
excluded, and each map with a present `online` (null or resolved) contributes
exactly one Hash-tagged entry re-encoded from the lowercased hex hash with the
original `dateAdded`. -/
theorem projection_drop_law (p : PlaylistLocal) :
    (ConvertToPlaylistBlister p).title = p.title ∧
    (ConvertToPlaylistBlister p).author = p.author ∧
    (ConvertToPlaylistBlister p).description = p.description ∧
    (ConvertToPlaylistBlister p).cover = p.cover ∧
    (ConvertToPlaylistBlister p).maps = p.maps.filterMap specProjectMap ∧
    (ConvertToPlaylistBlister p).maps.length =
      (p.maps.filter fun m => m.online.isSome).length := by
  refine ⟨rfl, rfl, rfl, rfl, ?_, ?_⟩
  · show p.maps.filterMap blisterMapOfLocal = _
    rw [blisterMapOfLocal_eq_spec]
  · show (p.maps.filterMap blisterMapOfLocal).length = _
    rw [length_filterMap_eq_length_filter]
    congr 1
    refine List.filter_congr ?_
    intro m _
    rcases h : m.online with _ | o <;>
      simp [blisterMapOfLocal, h]

/-! ### C7: format detector -/

/-- C7: the format detector returns `false` exactly when marker validation
succeeds and `true` on any validation failure; being a total boolean function
of the buffer, it never re-raises the validation failure. -/
theorem format_detector_boolean (env : Env) (buffer : ByteBuf) :
    (∀ u : Unit, env.validateMagicNumber buffer = Except.ok u →
      IsOldFormat env buffer = false) ∧
    (∀ msg : String, env.validateMagicNumber buffer = Except.error msg →
      IsOldFormat env buffer = true) := by
  constructor
  · intro u hu
    simp [IsOldFormat, hu]
  · intro msg hm
    simp [IsOldFormat, hm]

/-- C7 witness: the always-failing validator of `envD` classifies the empty
buffer (and a JSON-looking byte) as legacy. -/
theorem format_detector_boolean_witness :
    IsOldFormat envD [] = true ∧ IsOldFormat envD [123] = true :=
  ⟨(format_detector_boolean envD []).2 "magic" rfl,
   (format_detector_boolean envD [123]).2 "magic" rfl⟩

/-! ### C10: null `online` still saved, with an empty hash -/

/-- C10: a map whose `online` is explicitly null is not dropped by the
save-direction projection: it yields a Hash-tagged canonical entry whose hash
is decoded from the empty string, i.e. a zero-length buffer, keeping the
original `dateAdded`. -/
theorem null_online_kept_empty_hash (p : PlaylistLocal) (m : PlaylistLocalMap)
    (hm : m ∈ p.maps) (hnull : m.online = some none) :
    blisterMapOfLocal m =
      some { dateAdded := m.dateAdded, type := BeatmapType.hash, key := 0,
             hash := hexToBytes (jsToLower "") } ∧
    hexToBytes (jsToLower "") = ([] : ByteBuf) ∧
    ({ dateAdded := m.dateAdded, type := BeatmapType.hash, key := 0,
       hash := [] } : IBeatmap) ∈ (ConvertToPlaylistBlister p).maps := by
  have hb : blisterMapOfLocal m =
      some { dateAdded := m.dateAdded, type := BeatmapType.hash, key := 0, hash := [] } := by
    simp [blisterMapOfLocal, hnull]
    rfl
  refine ⟨by rw [hb]; rfl, rfl, ?_⟩
  show _ ∈ p.maps.filterMap blisterMapOfLocal
  exact List.mem_filterMap.mpr ⟨m, hm, hb⟩

/-- C10 witness: a singleton playlist whose only map was looked up but not
found. -/
theorem null_online_kept_empty_hash_witness :
    blisterMapOfLocal { dateAdded := 5, online := some none } =
      some { dateAdded := 5, type := BeatmapType.hash, key := 0,
             hash := hexToBytes (jsToLower "") } ∧
    hexToBytes (jsToLower "") = ([] : ByteBuf) ∧
    ({ dateAdded := 5, type := BeatmapType.hash, key := 0, hash := [] } : IBeatmap) ∈
      (ConvertToPlaylistBlister
        { title := "t", maps := [{ dateAdded := 5, online := some none }] }).maps :=
  null_online_kept_empty_hash
    { title := "t", maps := [{ dateAdded := 5, online := some none }] }
    { dateAdded := 5, online := some none } (by simp) rfl

/-! ### C5: error collapsing at the Load/Save boundary -/

/-- Environment whose marker validation succeeds but whose binary
deserialization fails (valid magic number, corrupt body). -/
def envC5 : Env :=
  { validateMagicNumber := fun _ => Except.ok ()
    parseLegacy := fun _ => Except.error ()
    deserialize := fun _ => Except.error ()
    serialize := fun _ => Except.error ()
    getBeatmapByKey := fun _ => none
    getBeatmapByHash := fun _ => none }

/-- Filesystem holding one one-byte file. -/
def fsC5 : FileSystem :=
  { files := fun p => if p = "corrupt.blist" then some [1] else none
    writeFails := fun _ => false }

/-- C5 counterexample: an execution of `Load` that fails by raising an
exception to the caller.  The file exists, marker validation succeeds, and the
binary deserializer fails; `Load` has no try/catch around `deserialize`, so
the failure propagates (`Except.error`) instead of being collapsed to
`undefined`. -/
theorem load_deserialize_error_escapes :
    Load envC5 fsC5 "corrupt.blist" false {} = Except.error () := rfl

/-- C5 (amended): the absent-file and malformed-legacy-JSON conditions are
collapsed to `undefined` by `Load`, and `Save` collapses a serialization or
write failure to `false` with the filesystem untouched (it is a total boolean
function, so no exception escapes it); however a binary deserialization
failure inside `Load` is not caught and propagates to the caller. -/
theorem load_save_error_collapse :
    (∀ (env : Env) (fs : FileSystem) (fp : String) (force : Bool) (prog : Progress),
      fs.files fp = none → Load env fs fp force prog = Except.ok (none, fs, prog)) ∧
    (∀ (env : Env) (fs : FileSystem) (fp : String) (force : Bool) (prog : Progress)
        (buf : ByteBuf),
      fs.files fp = some buf → IsOldFormat env buf = true →
      env.parseLegacy buf = Except.error () →
      Load env fs fp force prog = Except.ok (none, fs, prog)) ∧
    (∀ (env : Env) (fs : FileSystem) (fp : String) (pl : PlaylistLocal),
      env.serialize (ConvertToPlaylistBlister pl) = Except.error () →
      Save env fs fp pl = (false, fs)) ∧
    (∀ (env : Env) (fs : FileSystem) (fp : String) (pl : PlaylistLocal),
      fs.writeFails fp = true → Save env fs fp pl = (false, fs)) ∧
    (∀ (env : Env) (fs : FileSystem) (fp : String) (force : Bool) (prog : Progress)
        (buf : ByteBuf),
      fs.files fp = some buf → IsOldFormat env buf = false →
      env.deserialize buf = Except.error () →
      Load env fs fp force prog = Except.error ()) := by
  refine ⟨?_, ?_, ?_, ?_, ?_⟩
  · intro env fs fp force prog hfile
    simp [Load, hfile]
  · intro env fs fp force prog buf hfile hold hparse
    simp [Load, hfile, hold, hparse]
  · intro env fs fp pl hser
    simp [Save, hser]
  · intro env fs fp pl hw
    cases hser : env.serialize (ConvertToPlaylistBlister pl) <;>
      simp [Save, hser, FileSystem.writeFile, hw]
  · intro env fs fp force prog buf hfile hold hdeser
    simp [Load, hfile, hold, hdeser]

/-- C5 witness: each collapsed failure mode exercised at a concrete input. -/
theorem load_save_error_collapse_witness :
    Load envD fsC5 "missing.json" false {} = Except.ok (none, fsC5, {}) ∧
    Load envD fsC5 "corrupt.blist" false {} = Except.ok (none, fsC5, {}) ∧
    Save envD fsC5 "out.blist" {} = (false, fsC5) ∧
    Save envC5 { fsC5 with writeFails := fun _ => true } "out.blist" {} =
      (false, { fsC5 with writeFails := fun _ => true }) ∧
    Load envC5 fsC5 "corrupt.blist" false {} = Except.error () :=
  ⟨load_save_error_collapse.1 envD fsC5 "missing.json" false {} rfl,
   load_save_error_collapse.2.1 envD fsC5 "corrupt.blist" false {} [1] rfl rfl rfl,
   load_save_error_collapse.2.2.1 envD fsC5 "out.blist" {} rfl,
   load_save_error_collapse.2.2.2.1 envC5 _ "out.blist" {} rfl,
   load_save_error_collapse.2.2.2.2 envC5 fsC5 "corrupt.blist" false {} [1] rfl rfl rfl⟩

/-! ### C9: the returned `path` names the original source file -/

/-- The `path` field of the playlist a `Load` run returned (`none` when the
run raised or returned `undefined`). -/
def loadedPath : Except Unit (Option PlaylistLocal × FileSystem × Progress) →
    Option (Option String)
  | Except.ok (some out, _, _) => some out.path
  | _ => none

/-- The content of the post-`Load` filesystem at `q` (`none` when the run
raised). -/
def loadedFileAt : Except Unit (Option PlaylistLocal × FileSystem × Progress) → String →
    Option (Option ByteBuf)
  | Except.ok (_, fs, _), q => some (fs.files q)
  | Except.error _, _ => none

/-- C9: every successful `Load` stamps the original source filepath into the
returned playlist's `path` — `output.path = filepath` runs after the optional
migration — so after a successful forced conversion the returned `path` names
the just-deleted legacy file (absent from the resulting filesystem), not the
newly written binary sibling. -/
theorem load_path_original :
    (∀ (env : Env) (fs : FileSystem) (fp : String) (force : Bool) (prog : Progress)
        (pth : Option String),
      loadedPath (Load env fs fp force prog) = some pth → pth = some fp) ∧
    (∀ (env : Env) (fs : FileSystem) (fp : String) (prog : Progress) (buf : ByteBuf)
        (pl : IPlaylist),
      fs.files fp = some buf → IsOldFormat env buf = true →
      env.parseLegacy buf = Except.ok pl →
      (Save env fs (derivedPath fp) (ConvertToPlaylistLocal env pl prog).1).1 = true →
      loadedPath (Load env fs fp true prog) = some (some fp) ∧
      loadedFileAt (Load env fs fp true prog) fp = some none) := by
  constructor
  · intro env fs fp force prog pth h
    cases hfile : fs.files fp with
    | none => simp [Load, hfile, loadedPath] at h
    | some buf =>
      by_cases hold : IsOldFormat env buf
      · cases hparse : env.parseLegacy buf with
        | error e => simp [Load, hfile, hold, hparse, loadedPath] at h
        | ok pl =>
          simp [Load, hfile, hold, hparse, loadedPath] at h
          exact h.symm
      · cases hdeser : env.deserialize buf with
        | error e =>
          simp [Load, hfile, Bool.of_not_eq_true hold, hdeser, loadedPath] at h
        | ok pl =>
          simp [Load, hfile, Bool.of_not_eq_true hold, hdeser, loadedPath] at h
          exact h.symm
  · intro env fs fp prog buf pl hfile hold hparse hsave
    have hload : Load env fs fp true prog =
        Except.ok (some { (ConvertToPlaylistLocal env pl prog).1 with path := some fp },
          ConvertPlaylistFile env fs fp (ConvertToPlaylistLocal env pl prog).1,
          (ConvertToPlaylistLocal env pl prog).2) := by
      simp [Load, hfile, hold, hparse]
    rw [hload]
    refine ⟨rfl, ?_⟩
    simp only [loadedFileAt, ConvertPlaylistFile, hsave, if_true, Option.some.injEq]
    simp [FileSystem.unlink]

/-- Canonical playlist used by the C9 witness scenario. -/
def plC9 : IPlaylist := { title := "t", author := "a", description := "d", cover := [], maps := [] }

/-- Legacy-load environment for the C9 witness: every buffer is legacy,
`[123]` parses to `plC9`, serialization always succeeds. -/
def envL : Env :=
  { validateMagicNumber := fun _ => Except.error "not blister"
    parseLegacy := fun b => if b = [123] then Except.ok plC9 else Except.error ()
    deserialize := fun _ => Except.error ()
    serialize := fun _ => Except.ok [9]
    getBeatmapByKey := fun _ => none
    getBeatmapByHash := fun _ => none }

/-- Filesystem with one legacy file for the C9 witness. -/
def fsL : FileSystem :=
  { files := fun p => if p = "dir/p.json" then some [123] else none
    writeFails := fun _ => false }

/-- C9 witness: a successful forced conversion of `dir/p.json`; the returned
`path` is the original filepath even though that file was just deleted. -/
theorem load_path_original_witness :
    loadedPath (Load envL fsL "dir/p.json" true {}) = some (some "dir/p.json") ∧
    loadedFileAt (Load envL fsL "dir/p.json" true {}) "dir/p.json" = some none :=
  load_path_original.2 envL fsL "dir/p.json" {} [123] plC9 rfl rfl rfl rfl

/-! ### C6: the file migrator -/

lemma slash_not_mem_baseChars (s : List Char) : ('/' : Char) ∉ baseChars s := by
  induction s with
  | nil => simp [baseChars]
  | cons c cs ih =>
    unfold baseChars
    by_cases hc : c = '/'
    · rw [if_pos hc]
      exact ih
    · by_cases hmem : ('/' : Char) ∈ cs
      · rw [if_neg hc, if_pos hmem]
        exact ih
      · rw [if_neg hc, if_neg hmem]
        intro hcontra
        rcases List.mem_cons.mp hcontra with h | h
        · exact hc h.symm
        · exact hmem h

lemma baseChars_of_not_mem {s : List Char} (h : ('/' : Char) ∉ s) : baseChars s = s := by
  induction s with
  | nil => rfl
  | cons c cs ih =>
    have hc : ¬c = '/' := fun hc => h (hc ▸ List.mem_cons_self c cs)
    have hmem : ('/' : Char) ∉ cs := fun hm => h (List.mem_cons_of_mem c hm)
    unfold baseChars
    rw [if_neg hc, if_neg hmem]

lemma baseChars_append_slash (xs ys : List Char) :
    baseChars (xs ++ '/' :: ys) = baseChars ys := by
  induction xs with
  | nil =>
    show baseChars ('/' :: ys) = baseChars ys
    simp [baseChars]
  | cons x xs ih =>
    show baseChars (x :: (xs ++ '/' :: ys)) = baseChars ys
    by_cases hx : x = '/'
    · simp only [baseChars, hx, if_pos]
      exact ih
    · have hmem : ('/' : Char) ∈ xs ++ '/' :: ys := by simp
      simp only [baseChars, hx, hmem, if_neg, if_true, if_false]
      exact ih

lemma mem_nameAux {x : Char} {l : List Char} (h : x ∈ nameAux l) : x ∈ l := by
  induction l with
  | nil => simp [nameAux] at h
  | cons c cs ih =>
    simp only [nameAux] at h
    by_cases hc : c = '.' ∧ ('.' : Char) ∉ cs
    · rw [if_pos hc] at h
      cases h
    · rw [if_neg hc] at h
      rcases List.mem_cons.mp h with h2 | h2
      · exact h2 ▸ List.mem_cons_self c cs
      · exact List.mem_cons_of_mem c (ih h2)

lemma mem_nameChars {x : Char} {l : List Char} (h : x ∈ nameChars l) : x ∈ l := by
  cases l with
  | nil => simp [nameChars] at h
  | cons c cs =>
    simp only [nameChars] at h
    by_cases hdot : ('.' : Char) ∈ cs
    · rw [if_pos hdot] at h
      rcases List.mem_cons.mp h with h2 | h2
      · exact h2 ▸ List.mem_cons_self c cs
      · exact List.mem_cons_of_mem c (mem_nameAux h2)
    · rw [if_neg hdot] at h
      exact h

lemma save_false_snd (env : Env) (fs : FileSystem) (p : String) (pl : PlaylistLocal)
    (h : (Save env fs p pl).1 = false) : (Save env fs p pl).2 = fs := by
  cases hser : env.serialize (ConvertToPlaylistBlister pl) with
  | error e => simp [Save, hser]
  | ok buffer =>
    by_cases hw : fs.writeFails p
    · simp [Save, hser, FileSystem.writeFile, hw]
    · exfalso
      have htrue : (Save env fs p pl).1 = true := by
        simp [Save, hser, FileSystem.writeFile, hw]
      rw [htrue] at h
      cases h

lemma save_true_decomp (env : Env) (fs : FileSystem) (p : String) (pl : PlaylistLocal)
    (buf : ByteBuf) (hser : env.serialize (ConvertToPlaylistBlister pl) = Except.ok buf)
    (h : (Save env fs p pl).1 = true) :
    fs.writeFails p = false ∧
    (Save env fs p pl).2 =
      { fs with files := fun q => if q = p then some buf else fs.files q } := by
  by_cases hw : fs.writeFails p
  · exfalso
    have hfalse : (Save env fs p pl).1 = false := by
      simp [Save, hser, FileSystem.writeFile, hw]
    rw [hfalse] at h
    cases h
  · refine ⟨Bool.of_not_eq_true hw, ?_⟩
    simp [Save, hser, FileSystem.writeFile, hw]

/-- C6: the file migrator writes the binary form at the sibling path derived
by replacing the extension of the original base name with the fixed binary
extension in the same directory, deletes the original legacy file exactly when
that save reports success, and leaves the filesystem untouched (raising
nothing further — it is a total function) when the save fails. -/
theorem file_migrator_effects :
    (∀ (env : Env) (fs : FileSystem) (fp : String) (pl : PlaylistLocal),
      (Save env fs (derivedPath fp) pl).1 = false →
      ConvertPlaylistFile env fs fp pl = fs) ∧
    (∀ (env : Env) (fs : FileSystem) (fp : String) (pl : PlaylistLocal) (buf : ByteBuf),
      env.serialize (ConvertToPlaylistBlister pl) = Except.ok buf →
      (Save env fs (derivedPath fp) pl).1 = true →
      (ConvertPlaylistFile env fs fp pl).files fp = none ∧
      (fp ≠ derivedPath fp →
        (ConvertPlaylistFile env fs fp pl).files (derivedPath fp) = some buf) ∧
      (∀ q, q ≠ fp → q ≠ derivedPath fp →
        (ConvertPlaylistFile env fs fp pl).files q = fs.files q)) ∧
    (∀ fp : String,
      ((parseDir fp.data).getLast? = some '/' → parseDir fp.data = ['/']) →
      parseDir (derivedPath fp).data = parseDir fp.data ∧
      baseChars (derivedPath fp).data =
        nameChars (baseChars fp.data) ++ '.' :: PLAYLIST_EXTENSION_NAME.data) := by
  refine ⟨?_, ?_, ?_⟩
  · intro env fs fp pl hfail
    have hsnd := save_false_snd env fs (derivedPath fp) pl hfail
    simp [ConvertPlaylistFile, hfail, hsnd]
  · intro env fs fp pl buf hser hsave
    obtain ⟨hw, hsnd⟩ := save_true_decomp env fs (derivedPath fp) pl buf hser hsave
    have hcpf : ConvertPlaylistFile env fs fp pl =
        ((Save env fs (derivedPath fp) pl).2).unlink fp := by
      simp [ConvertPlaylistFile, hsave]
    rw [hcpf, hsnd]
    unfold FileSystem.unlink
    refine ⟨by simp, ?_, ?_⟩
    · intro hne
      have h1 : derivedPath fp ≠ fp := fun h => hne h.symm
      simp [if_neg h1]
    · intro q hq1 hq2
      simp [if_neg hq1, if_neg hq2]
  · intro fp hnorm
    set D := parseDir fp.data with hD
    set F := nameChars (baseChars fp.data) ++ '.' :: PLAYLIST_EXTENSION_NAME.data with hF
    have hFslash : ('/' : Char) ∉ F := by
      rw [hF]
      intro hmem
      rcases List.mem_append.mp hmem with h | h
      · exact slash_not_mem_baseChars fp.data (mem_nameChars h)
      · revert h
        decide
    have hdata : (derivedPath fp).data = joinChars D F := rfl
    by_cases hDnil : D = []
    · rw [hdata, hDnil]
      have hjoin : joinChars [] F = F := by simp [joinChars]
      rw [hjoin]
      constructor
      · rw [parseDir, if_neg hFslash]
      · exact baseChars_of_not_mem hFslash
    · by_cases hlast : D.getLast? = some '/'
      · have hroot : D = ['/'] := hnorm hlast
        rw [hdata, hroot]
        have hjoin : joinChars ['/'] F = '/' :: F := by simp [joinChars]
        rw [hjoin]
        have hbase : baseChars ('/' :: F) = F := by
          rw [show ('/' :: F) = [] ++ '/' :: F from rfl, baseChars_append_slash]
          exact baseChars_of_not_mem hFslash
        constructor
        · rw [parseDir]
          have hmem : ('/' : Char) ∈ '/' :: F := List.mem_cons_self _ _
          rw [if_pos hmem]
          have hraw : dirRaw ('/' :: F) = [] := by
            unfold dirRaw
            rw [hbase]
            simp
          rw [if_pos hraw]
        · exact hbase
      · rw [hdata]
        have hjoin : joinChars D F = D ++ '/' :: F := by
          rw [joinChars, if_neg hDnil, if_neg hlast]
        rw [hjoin]
        have hbase : baseChars (D ++ '/' :: F) = F := by
          rw [baseChars_append_slash]
          exact baseChars_of_not_mem hFslash
        constructor
        · rw [parseDir]
          have hmem : ('/' : Char) ∈ D ++ '/' :: F := by simp
          rw [if_pos hmem]
          have hraw : dirRaw (D ++ '/' :: F) = D := by
            unfold dirRaw
            rw [hbase]
            have hlen : (D ++ '/' :: F).length - F.length - 1 = D.length := by
              simp only [List.length_append, List.length_cons]
              omega
            rw [hlen]
            exact List.take_left D ('/' :: F)
          rw [hraw, if_neg hDnil]
        · exact hbase

/-- C6 witness: a failing and a successful migration of `dir/p.json`, plus the
sibling-path shape of the derived filepath. -/
theorem file_migrator_effects_witness :
    ConvertPlaylistFile envD fsL "dir/p.json" {} = fsL ∧
    (ConvertPlaylistFile envL fsL "dir/p.json" {}).files "dir/p.json" = none ∧
    (ConvertPlaylistFile envL fsL "dir/p.json" {}).files (derivedPath "dir/p.json") =
      some [9] ∧
    parseDir (derivedPath "dir/p.json").data = parseDir "dir/p.json".data ∧
    baseChars (derivedPath "dir/p.json").data =
      nameChars (baseChars "dir/p.json".data) ++ '.' :: PLAYLIST_EXTENSION_NAME.data :=
  ⟨file_migrator_effects.1 envD fsL "dir/p.json" {} rfl,
   (file_migrator_effects.2.1 envL fsL "dir/p.json" {} [9] rfl rfl).1,
   (file_migrator_effects.2.1 envL fsL "dir/p.json" {} [9] rfl rfl).2.1 (by decide),
   (file_migrator_effects.2.2 "dir/p.json" (by decide)).1,
   (file_migrator_effects.2.2 "dir/p.json" (by decide)).2⟩

/-! ### C8: progress reporting over interleaved task completions

The fan-out of `ConvertToPlaylistLocal` runs one task per map entry; the
shared sink is touched by three kinds of atomic events (JS runs continuations
one at a time on the event loop, so each `progress.done += 1` is atomic):
`start` is lines 82-83 (`status = Running; total = maps.length`), `complete i`
is line 112 run by task `i` (after either outcome of the switch), and `finish`
is line 117 (`status = Completed`), which `Promise.all` orders after every
completion.  A run of the resolver is `start`, then the `n` completions in an
arbitrary interleaving order, then `finish`. -/

inductive ResolveEvent (n : Nat) where
  | start
  | complete (i : Fin n)
  | finish
deriving DecidableEq, Repr

/-- Effect of one atomic event on the progress sink. -/
def resolveStep {n : Nat} (s : Progress) : ResolveEvent n → Progress
  | ResolveEvent.start => { s with status := ProgressStatus.running, total := n }
  | ResolveEvent.complete _ => { s with done := s.done + 1 }
  | ResolveEvent.finish => { s with status := ProgressStatus.completed }

/-- Final sink state after a sequence of events. -/
def runEvents {n : Nat} (init : Progress) (es : List (ResolveEvent n)) : Progress :=
  es.foldl resolveStep init

/-- The event sequence of one resolver run whose tasks complete in the
interleaving order `cs`. -/
def resolveSchedule {n : Nat} (cs : List (Fin n)) : List (ResolveEvent n) :=
  ResolveEvent.start :: (cs.map ResolveEvent.complete ++ [ResolveEvent.finish])

lemma foldl_completes {n : Nat} (cs : List (Fin n)) (s : Progress) :
    List.foldl resolveStep s (cs.map ResolveEvent.complete) =
      { s with done := s.done + cs.length } := by
  induction cs generalizing s with
  | nil => simp
  | cons c cs ih =>
    rw [List.map_cons, List.foldl_cons, ih]
    show Progress.mk s.status s.total (s.done + 1 + cs.length) =
      Progress.mk s.status s.total (s.done + (cs.length + 1))
    congr 1
    omega

lemma scanl_ne_nil {α β : Type} (f : β → α → β) (b : β) (l : List α) :
    List.scanl f b l ≠ [] := by
  cases l <;> simp [List.scanl]

lemma dropLast_cons_ne_nil {α : Type} (a : α) {l : List α} (h : l ≠ []) :
    (a :: l).dropLast = a :: l.dropLast := by
  cases l with
  | nil => cases h rfl
  | cons b bs => exact List.dropLast_cons₂

lemma c8_scanl_bound {n : Nat} :
    ∀ (cs : List (Fin n)) (s : Progress), s.done + cs.length ≤ s.total →
      ∀ t ∈ List.scanl resolveStep s (cs.map ResolveEvent.complete ++ [ResolveEvent.finish]),
        t.done ≤ t.total := by
  intro cs
  induction cs with
  | nil =>
    intro s hs t ht
    simp only [List.map_nil, List.nil_append, List.scanl, List.mem_cons,
      List.not_mem_nil, or_false] at ht
    rcases ht with h | h
    · subst h
      simpa using hs
    · subst h
      simpa [resolveStep] using hs
  | cons c cs ih =>
    intro s hs t ht
    rw [List.map_cons, List.cons_append, List.scanl_cons, List.singleton_append] at ht
    rcases List.mem_cons.mp ht with h | h
    · subst h
      calc t.done ≤ t.done + (cs.length + 1) := Nat.le_add_right _ _
        _ ≤ t.total := hs
    · refine ih (resolveStep s (ResolveEvent.complete c)) ?_ t h
      show s.done + 1 + cs.length ≤ s.total
      calc s.done + 1 + cs.length = s.done + (cs.length + 1) := by omega
        _ ≤ s.total := hs

lemma c8_scanl_status {n : Nat} :
    ∀ (cs : List (Fin n)) (s : Progress), s.status = ProgressStatus.running →
      ∀ t ∈ (List.scanl resolveStep s
          (cs.map ResolveEvent.complete ++ [ResolveEvent.finish])).dropLast,
        t.status = ProgressStatus.running := by
  intro cs
  induction cs with
  | nil =>
    intro s hs t ht
    simp only [List.map_nil, List.nil_append] at ht
    rw [show List.scanl resolveStep s [(ResolveEvent.finish : ResolveEvent n)] =
      [s, resolveStep s ResolveEvent.finish] from rfl] at ht
    rw [show List.dropLast [s, resolveStep s (ResolveEvent.finish : ResolveEvent n)] =
      [s] from rfl] at ht
    rw [List.mem_singleton] at ht
    exact ht ▸ hs
  | cons c cs ih =>
    intro s hs t ht
    rw [List.map_cons, List.cons_append, List.scanl_cons, List.singleton_append,
      dropLast_cons_ne_nil _ (scanl_ne_nil _ _ _)] at ht
    rcases List.mem_cons.mp ht with h | h
    · exact h ▸ hs
    · exact ih (resolveStep s (ResolveEvent.complete c)) hs t h

/-- C8: for every interleaving in which each of the `n` resolution tasks
completes exactly once: the sink is set to Running with `total = n` before any
completion; every completion raises `done` by exactly one; from the start
event on, `done` never exceeds `total` at any intermediate state and ends
exactly at `total = n`; the status becomes Completed only at the final state;
and the final sink state agrees with the one `ConvertToPlaylistLocal` produces
on any playlist with `n` maps. -/
theorem resolve_progress_trace (n : Nat) (cs : List (Fin n)) (init : Progress)
    (hdone : init.done = 0) (hstat : init.status = ProgressStatus.notStarted)
    (hnd : cs.Nodup) (hlen : cs.length = n) :
    (runEvents init (resolveSchedule cs)).done = n ∧
    (runEvents init (resolveSchedule cs)).total = n ∧
    (runEvents init (resolveSchedule cs)).status = ProgressStatus.completed ∧
    resolveStep init (ResolveEvent.start : ResolveEvent n) =
      { init with status := ProgressStatus.running, total := n } ∧
    (∀ t ∈ List.scanl resolveStep (resolveStep init (ResolveEvent.start : ResolveEvent n))
        (cs.map ResolveEvent.complete ++ [ResolveEvent.finish]), t.done ≤ t.total) ∧
    (∀ t ∈ (List.scanl resolveStep init (resolveSchedule cs)).dropLast,
      t.status ≠ ProgressStatus.completed) ∧
    (∀ (s : Progress) (i : Fin n), (resolveStep s (ResolveEvent.complete i)).done = s.done + 1) ∧
    (∀ (env : Env) (pl : IPlaylist), pl.maps.length = n →
      runEvents init (resolveSchedule cs) = (ConvertToPlaylistLocal env pl init).2) := by
  have hrun : runEvents init (resolveSchedule cs) =
      { status := ProgressStatus.completed, total := n, done := n } := by
    unfold runEvents resolveSchedule
    rw [List.foldl_cons, List.foldl_append, foldl_completes]
    show Progress.mk ProgressStatus.completed n (init.done + cs.length) = _
    rw [hdone, hlen, Nat.zero_add]
  refine ⟨by rw [hrun], by rw [hrun], by rw [hrun], rfl, ?_, ?_, fun s i => rfl, ?_⟩
  · intro t ht
    refine c8_scanl_bound cs (resolveStep init ResolveEvent.start) ?_ t ht
    show init.done + cs.length ≤ n
    omega
  · intro t ht
    rw [resolveSchedule, List.scanl_cons, List.singleton_append,
      dropLast_cons_ne_nil _ (scanl_ne_nil _ _ _)] at ht
    rcases List.mem_cons.mp ht with h | h
    · subst h
      rw [hstat]
      exact fun hcontra => by cases hcontra
    · have hrunning := c8_scanl_status cs (resolveStep init ResolveEvent.start) rfl t h
      rw [hrunning]
      exact fun hcontra => by cases hcontra
  · intro env pl hn
    rw [hrun]
    show _ = Progress.mk ProgressStatus.completed pl.maps.length (init.done + pl.maps.length)
    rw [hdone, hn, Nat.zero_add]

/-- C8 witness: two tasks completing out of submission order. -/
theorem resolve_progress_trace_witness :
    (runEvents ({} : Progress) (resolveSchedule [(1 : Fin 2), 0])).done = 2 ∧
    (runEvents ({} : Progress) (resolveSchedule [(1 : Fin 2), 0])).total = 2 ∧
    (runEvents ({} : Progress) (resolveSchedule [(1 : Fin 2), 0])).status =
      ProgressStatus.completed :=
  ⟨(resolve_progress_trace 2 [1, 0] {} rfl rfl (by decide) rfl).1,
   (resolve_progress_trace 2 [1, 0] {} rfl rfl (by decide) rfl).2.1,
   (resolve_progress_trace 2 [1, 0] {} rfl rfl (by decide) rfl).2.2.1⟩

/-! ### C4: save/load round trip -/

lemma hexDigitVal_hexDigitChar (k : Nat) (hk : k < 16) :
    hexDigitVal (hexDigitChar k) = some ⟨k, hk⟩ := by
  interval_cases k <;> rfl

lemma toLower_hexDigitChar (k : Nat) (hk : k < 16) :
    Char.toLower (hexDigitChar k) = hexDigitChar k := by
  interval_cases k <;> decide

lemma hexToBytesCore_byte (b : Fin 256) (rest : List Char) :
    hexToBytesCore (byteToHex b ++ rest) = b :: hexToBytesCore rest := by
  show hexToBytesCore (hexDigitChar (b.val / 16) :: hexDigitChar (b.val % 16) :: rest) = _
  simp only [hexToBytesCore, hexDigitVal_hexDigitChar (b.val / 16) (by omega),
    hexDigitVal_hexDigitChar (b.val % 16) (Nat.mod_lt _ (by omega))]
  congr 1
  exact Fin.ext (Nat.div_add_mod b.val 16)

lemma hexToBytesCore_flatten (bs : ByteBuf) :
    hexToBytesCore ((bs.map byteToHex).flatten) = bs := by
  induction bs with
  | nil => rfl
  | cons b bs ih =>
    rw [List.map_cons, List.flatten_cons, hexToBytesCore_byte, ih]

/-- Decoding the hex rendering of a byte buffer gives the buffer back. -/
lemma hexToBytes_bytesToHex (bs : ByteBuf) : hexToBytes (bytesToHex bs) = bs :=
  hexToBytesCore_flatten bs

lemma map_toLower_byteToHex (b : Fin 256) : (byteToHex b).map Char.toLower = byteToHex b := by
  show [Char.toLower (hexDigitChar (b.val / 16)), Char.toLower (hexDigitChar (b.val % 16))] = _
  rw [toLower_hexDigitChar (b.val / 16) (by omega),
    toLower_hexDigitChar (b.val % 16) (Nat.mod_lt _ (by omega))]
  rfl

/-- A hex rendering is already lowercase. -/
lemma jsToLower_bytesToHex (bs : ByteBuf) : jsToLower (bytesToHex bs) = bytesToHex bs := by
  show String.mk (((bs.map byteToHex).flatten).map Char.toLower) =
    String.mk ((bs.map byteToHex).flatten)
  congr 1
  induction bs with
  | nil => rfl
  | cons b bs ih =>
    rw [List.map_cons, List.flatten_cons, List.map_append, map_toLower_byteToHex, ih]

lemma blisterMapOfLocal_resolved (m : PlaylistLocalMap) (e : BeatsaverBeatmap)
    (h : m.online = some (some e)) :
    blisterMapOfLocal m =
      some { dateAdded := m.dateAdded, type := BeatmapType.hash, key := 0,
             hash := hexToBytes (jsToLower e.hash) } := by
  simp [blisterMapOfLocal, h]

/-- Projecting an all-resolved map list to canonical form and resolving it
again restores each map's `online` entry and `dateAdded`, in order. -/
lemma roundtrip_maps (env : Env) :
    ∀ (l : List PlaylistLocalMap),
      (∀ m ∈ l, ∃ e bs, m.online = some (some e) ∧ e.hash = bytesToHex bs ∧
        env.getBeatmapByHash e.hash = some e) →
      (l.filterMap blisterMapOfLocal).map (convertMapToLocal env) =
        l.map (fun m => { dateAdded := m.dateAdded, online := m.online, error := none }) := by
  intro l
  induction l with
  | nil => intro _; rfl
  | cons m l ih =>
    intro hres
    obtain ⟨e, bs, honline, hhash, hcat⟩ := hres m (List.mem_cons_self m l)
    rw [List.filterMap_cons, blisterMapOfLocal_resolved m e honline]
    rw [List.map_cons, List.map_cons]
    congr 1
    · show PlaylistLocalMap.mk m.dateAdded
        (some (env.getBeatmapByHash (bytesToHex (hexToBytes (jsToLower e.hash))))) none = _
      rw [hhash, jsToLower_bytesToHex, hexToBytes_bytesToHex, ← hhash, hcat, ← honline]
    · exact ih (fun m2 hm2 => hres m2 (List.mem_cons_of_mem m hm2))

/-- C4: saving a fully resolved playlist and loading the produced file back
restores the metadata verbatim and every map's hash entry and `dateAdded` in
order, with every saved canonical entry Hash-tagged — under the interface
contracts of the collaborators: the catalog returns the entry stored under its
own (lowercase hex) hash, serialization round-trips the canonical playlist,
the serialized buffer carries a valid marker, and the write succeeds. -/
theorem save_load_roundtrip (env : Env) (fs fs2 : FileSystem) (fp : String)
    (P : PlaylistLocal) (progress : Progress) (buf : ByteBuf)
    (hres : ∀ m ∈ P.maps, ∃ e bs, m.online = some (some e) ∧ e.hash = bytesToHex bs ∧
      env.getBeatmapByHash e.hash = some e)
    (hser : env.serialize (ConvertToPlaylistBlister P) = Except.ok buf)
    (hval : env.validateMagicNumber buf = Except.ok ())
    (hdeser : env.deserialize buf = Except.ok (ConvertToPlaylistBlister P))
    (hwrite : fs.writeFile fp buf = Except.ok fs2) :
    Save env fs fp P = (true, fs2) ∧
    Load env fs2 fp false progress =
      Except.ok (some
        { title := P.title, author := P.author, description := P.description,
          cover := P.cover,
          maps := P.maps.map (fun m =>
            { dateAdded := m.dateAdded, online := m.online, error := none }),
          path := some fp },
        fs2, (ConvertToPlaylistLocal env (ConvertToPlaylistBlister P) progress).2) ∧
    (∀ b ∈ (ConvertToPlaylistBlister P).maps, b.type = BeatmapType.hash) := by
  have hfile : fs2.files fp = some buf := by
    unfold FileSystem.writeFile at hwrite
    by_cases hw : fs.writeFails fp
    · rw [if_pos hw] at hwrite
      cases hwrite
    · rw [if_neg hw] at hwrite
      injection hwrite with h
      rw [← h]
      simp
  refine ⟨?_, ?_, ?_⟩
  · simp [Save, hser, hwrite]
  · have hload : Load env fs2 fp false progress =
        Except.ok (some { (ConvertToPlaylistLocal env (ConvertToPlaylistBlister P) progress).1
            with path := some fp },
          fs2, (ConvertToPlaylistLocal env (ConvertToPlaylistBlister P) progress).2) := by
      simp [Load, hfile, IsOldFormat, hval, hdeser]
    have hmaps : (ConvertToPlaylistBlister P).maps.map (convertMapToLocal env) =
        P.maps.map (fun m =>
          { dateAdded := m.dateAdded, online := m.online, error := none }) :=
      roundtrip_maps env P.maps hres
    have hconv : (ConvertToPlaylistLocal env (ConvertToPlaylistBlister P) progress).1 =
        { title := P.title, author := P.author, description := P.description,
          cover := P.cover,
          maps := P.maps.map (fun m =>
            { dateAdded := m.dateAdded, online := m.online, error := none }),
          path := none } := by
      show PlaylistLocal.mk (ConvertToPlaylistBlister P).title
        (ConvertToPlaylistBlister P).author (ConvertToPlaylistBlister P).description
        (ConvertToPlaylistBlister P).cover
        ((ConvertToPlaylistBlister P).maps.map (convertMapToLocal env)) none = _
      rw [hmaps]
      rfl
    rw [hload, hconv]
  · intro b hb
    rcases List.mem_filterMap.mp hb with ⟨m, hm, hbm⟩
    by_cases h : m.online = none
    · rw [blisterMapOfLocal, if_pos h] at hbm
      cases hbm
    · rw [blisterMapOfLocal, if_neg h] at hbm
      injection hbm with h2
      rw [← h2]

/-- The fully resolved one-map playlist of the C4 witness. -/
def P0 : PlaylistLocal :=
  { title := "t", author := "a", description := "d", cover := [2],
    maps := [{ dateAdded := 7, online := some (some { hash := "ab" }) }] }

/-- Collaborators meeting the C4 interface contracts on the witness data. -/
def envR : Env :=
  { validateMagicNumber := fun _ => Except.ok ()
    parseLegacy := fun _ => Except.error ()
    deserialize := fun _ => Except.ok (ConvertToPlaylistBlister P0)
    serialize := fun _ => Except.ok [7]
    getBeatmapByKey := fun _ => none
    getBeatmapByHash := fun s => if s = "ab" then some { hash := "ab" } else none }

/-- Empty filesystem for the C4 witness. -/
def fsR : FileSystem := { files := fun _ => none, writeFails := fun _ => false }

/-- The filesystem after the C4 witness save. -/
def fs2R : FileSystem :=
  { fsR with files := fun q => if q = "out.blist" then some [7] else fsR.files q }

/-- C4 witness: saving and re-loading `P0` restores it. -/
theorem save_load_roundtrip_witness :
    Save envR fsR "out.blist" P0 = (true, fs2R) ∧
    Load envR fs2R "out.blist" false {} =
      Except.ok (some
        { title := P0.title, author := P0.author, description := P0.description,
          cover := P0.cover,
          maps := P0.maps.map (fun m =>
            { dateAdded := m.dateAdded, online := m.online, error := none }),
          path := some "out.blist" },
        fs2R, (ConvertToPlaylistLocal envR (ConvertToPlaylistBlister P0) {}).2) :=
  ⟨(save_load_roundtrip envR fsR fs2R "out.blist" P0 {} [7]
      (by
        intro m hm
        simp only [P0, List.mem_singleton] at hm
        subst hm
        exact ⟨{ hash := "ab" }, [171], rfl, by decide, rfl⟩)
      rfl rfl rfl rfl).1,
   (save_load_roundtrip envR fsR fs2R "out.blist" P0 {} [7]
      (by
        intro m hm
        simp only [P0, List.mem_singleton] at hm
        subst hm
        exact ⟨{ hash := "ab" }, [171], rfl, by decide, rfl⟩)
      rfl rfl rfl rfl).2.1⟩
